import Mathlib

/-!
Verification of the real-time presence/session coordinator of the
PI-3 miniproject chat backend.

The definitions below are a shallow embedding of `src/config/socket.ts`
(the Socket.IO event handlers: join, chat message, typing indicators,
leave, disconnect) and of the Firestore-facing persistence operations in
`src/services/chatService.ts` (`addParticipantToMeeting`,
`updateActiveParticipants`).  The in-memory `meetingRooms` JavaScript
`Map` and the Firestore `meetings` collection are both modelled as
insertion-ordered association lists, whose `get` / `set` / `delete`
helpers mirror the JavaScript `Map` operations.  Environment inputs
(`Date.now()`, `new Date().toISOString()`, `socket.id`, the configured
`MAX_PARTICIPANTS`) are passed to the handlers as explicit parameters.
Socket.IO emissions and Firestore writes are returned as explicit lists
of events and calls.
-/

namespace ChatServer

/-- `OnlineUser` from `src/types/index.ts`: one entry of a meeting's
in-memory real-time roster. -/
structure OnlineUser where
  socketId : String
  userId : String
  meetingId : String
  username : Option String
  joinedAt : String
deriving DecidableEq, Repr

/-- The public projection of a roster entry used in the `users:online`
snapshot payload (socket.ts lines 117-121 and 294-298). -/
structure PubUser where
  userId : String
  username : Option String
  joinedAt : String
deriving DecidableEq, Repr

/-- `ChatMessage` from `src/types/index.ts`: the payload broadcast for a
`chat:message` event. -/
structure ChatMessage where
  messageId : String
  meetingId : String
  userId : String
  username : Option String
  message : String
  timestamp : String
deriving DecidableEq, Repr

/-- The fields of a Firestore `meetings/{meetingId}` document that the
socket layer reads or writes: the historical `participants` array, the
real-time `activeParticipants` count, and `updatedAt`. -/
structure MeetingDoc where
  participants : List String
  activeParticipants : Nat
  updatedAt : String
deriving DecidableEq, Repr

/-- Audience of a Socket.IO emission: `socket.emit` (originator only),
`io.to(meetingId).emit` (every connection in the room), or
`socket.to(meetingId).emit` (every connection in the room except the
originator). -/
inductive Target where
  | originator : Target
  | room : String → Target
  | roomOthers : String → Target
deriving DecidableEq, Repr

/-- The events emitted by the handlers in `src/config/socket.ts`. -/
inductive SEvent where
  | errorMsg : String → SEvent
  | usersOnline : String → List PubUser → Nat → SEvent
  | userJoined : String → Option String → String → SEvent
  | userLeft : String → Option String → String → SEvent
  | chatMsg : ChatMessage → SEvent
  | typingStartEv : String → Option String → SEvent
  | typingStopEv : String → Option String → SEvent
deriving DecidableEq, Repr

/-- One Socket.IO emission: an event together with its audience. -/
structure Emit where
  dest : Target
  ev : SEvent
deriving DecidableEq, Repr

/-- A call made to the persistence layer (`ChatService`) by the socket
handlers. -/
inductive PersistCall where
  | addParticipant : String → String → PersistCall
  | updateActiveCount : String → Nat → PersistCall
deriving DecidableEq, Repr

/-- `Map.prototype.get` on an insertion-ordered association list. -/
def mapGet {α : Type} (k : String) : List (String × α) → Option α
  | [] => none
  | e :: es => if e.1 = k then some e.2 else mapGet k es

/-- `Map.prototype.set`: replaces the value of an existing key in place,
otherwise appends the binding at the end (insertion order). -/
def mapSet {α : Type} (k : String) (v : α) : List (String × α) → List (String × α)
  | [] => [(k, v)]
  | e :: es => if e.1 = k then (k, v) :: es else e :: mapSet k v es

/-- `Map.prototype.delete`: removes the binding of a key. -/
def mapDelete {α : Type} (k : String) : List (String × α) → List (String × α)
  | [] => []
  | e :: es => if e.1 = k then mapDelete k es else e :: mapDelete k es

/-- The full server state: the in-memory `meetingRooms` map
(socket.ts line 16) and the Firestore `meetings` collection
(`store`), both keyed by `meetingId`. -/
structure ServerState where
  meetingRooms : List (String × List OnlineUser)
  store : List (String × MeetingDoc)
deriving DecidableEq, Repr

/-- The result of running one event handler: the new server state, the
emissions, and the persistence calls it made, in program order. -/
structure HandlerResult where
  state : ServerState
  emits : List Emit
  calls : List PersistCall
deriving DecidableEq, Repr

/-- `String.prototype.trim()` (chatService message handling): drop
whitespace from both ends of the string. -/
def jsTrim (s : String) : String :=
  ⟨((s.data.dropWhile Char.isWhitespace).reverse.dropWhile Char.isWhitespace).reverse⟩

/-- JavaScript truthiness of an optional string: `undefined` and the
empty string are falsy. -/
def falsy (o : Option String) : Bool :=
  match o with
  | none => true
  | some s => s = ""

/-- JavaScript `a || b` on optional strings (used for
`user?.username || payload.username` in the chat-message handler). -/
def jsOr (a b : Option String) : Option String :=
  if falsy a then b else a

/-- `chatService.meetingExists` (chatService.ts lines 60-68): whether
the `meetings/{meetingId}` document exists. -/
def meetingExists (mid : String) (store : List (String × MeetingDoc)) : Bool :=
  (mapGet mid store).isSome

/-- `chatService.addParticipantToMeeting` (chatService.ts lines
100-126): read-modify-write that appends `userId` to the meeting's
historical `participants` array only if it is absent, also stamping
`updatedAt`; a no-op when the meeting document does not exist or the
user is already recorded. -/
def addParticipantToMeeting (mid uid now : String)
    (store : List (String × MeetingDoc)) : List (String × MeetingDoc) :=
  match mapGet mid store with
  | none => store
  | some doc =>
    if uid ∈ doc.participants then store
    else mapSet mid
      { doc with participants := doc.participants ++ [uid], updatedAt := now } store

/-- `chatService.updateActiveParticipants` (chatService.ts lines
134-150): overwrite the meeting document's `activeParticipants` count
(and `updatedAt`); a no-op when the meeting document does not exist. -/
def updateActiveParticipants (mid : String) (n : Nat) (now : String)
    (store : List (String × MeetingDoc)) : List (String × MeetingDoc) :=
  match mapGet mid store with
  | none => store
  | some doc =>
    mapSet mid { doc with activeParticipants := n, updatedAt := now } store

/-- `Array.prototype.find` followed by an in-place field mutation:
rewrite the first element satisfying `p` with `f`, leave the rest. -/
def updateFirst {α : Type} (p : α → Bool) (f : α → α) : List α → List α
  | [] => []
  | x :: xs => if p x then f x :: xs else x :: updateFirst p f xs

/-- `findIndex` followed by `splice(idx, 1)`: remove the first element
satisfying `p`, returning it together with the remaining list; `none`
when no element matches. -/
def removeFirst {α : Type} (p : α → Bool) : List α → Option (α × List α)
  | [] => none
  | x :: xs =>
    if p x then some (x, xs)
    else (removeFirst p xs).map (fun r => (r.1, x :: r.2))

/-- The `users:online` snapshot payload built from a roster
(socket.ts lines 115-123 and 292-300). -/
def snapshotOf (mid : String) (ps : List OnlineUser) : SEvent :=
  SEvent.usersOnline mid
    (ps.map (fun p => { userId := p.userId, username := p.username, joinedAt := p.joinedAt }))
    ps.length

/-- The `join:meeting` handler (socket.ts lines 53-140).  `maxP` is the
configured `MAX_PARTICIPANTS`; `sid` is `socket.id`; `now` stands for
`new Date().toISOString()`.  Validates the identifiers, checks that the
meeting exists, checks capacity against the current roster length,
then either updates the `socketId` of an already-present `userId`
(reconnect) or appends a new roster entry; finally persists the
historical participant and the new active count and emits the presence
snapshot to the room and a `user:joined` notice to the others. -/
def joinMeeting (maxP : Nat) (sid mid uid : String) (uname : Option String)
    (now : String) (st : ServerState) : HandlerResult :=
  if mid = "" ∨ uid = "" then
    { state := st,
      emits := [⟨Target.originator, SEvent.errorMsg "Meeting ID and User ID are required"⟩],
      calls := [] }
  else if ¬ meetingExists mid st.store then
    { state := st,
      emits := [⟨Target.originator, SEvent.errorMsg "Meeting not found"⟩],
      calls := [] }
  else
    let currentParticipants := (mapGet mid st.meetingRooms).getD []
    if maxP ≤ currentParticipants.length then
      { state := st,
        emits := [⟨Target.originator,
          SEvent.errorMsg ("Meeting is full (maximum " ++ toString maxP ++ " participants)")⟩],
        calls := [] }
    else
      let newParticipants :=
        if currentParticipants.any (fun u => u.userId = uid) then
          updateFirst (fun u => u.userId = uid) (fun u => { u with socketId := sid })
            currentParticipants
        else
          currentParticipants ++
            [{ socketId := sid, userId := uid, meetingId := mid,
               username := uname, joinedAt := now }]
      let rooms := mapSet mid newParticipants st.meetingRooms
      let store₁ := addParticipantToMeeting mid uid now st.store
      let store₂ := updateActiveParticipants mid newParticipants.length now store₁
      { state := { meetingRooms := rooms, store := store₂ },
        emits := [⟨Target.room mid, snapshotOf mid newParticipants⟩,
                  ⟨Target.roomOthers mid, SEvent.userJoined uid uname now⟩],
        calls := [PersistCall.addParticipant mid uid,
                  PersistCall.updateActiveCount mid newParticipants.length] }

/-- `handleUserLeave` (socket.ts lines 255-310), shared by the
`leave:meeting` and `disconnect` paths: a no-op when the meeting has no
roster or the roster has no entry for this `socketId`; otherwise
removes the first matching entry, deletes the roster when it becomes
empty, notifies the room, and persists the new active count. -/
def handleUserLeave (sid mid now : String) (st : ServerState) : HandlerResult :=
  match mapGet mid st.meetingRooms with
  | none => { state := st, emits := [], calls := [] }
  | some participants =>
    match removeFirst (fun p => p.socketId = sid) participants with
    | none => { state := st, emits := [], calls := [] }
    | some (user, rest) =>
      let rooms :=
        if rest.length = 0 then mapDelete mid st.meetingRooms
        else mapSet mid rest st.meetingRooms
      { state := { meetingRooms := rooms,
                   store := updateActiveParticipants mid rest.length now st.store },
        emits := [⟨Target.room mid, SEvent.userLeft user.userId user.username now⟩,
                  ⟨Target.room mid, snapshotOf mid rest⟩],
        calls := [PersistCall.updateActiveCount mid rest.length] }

/-- The `disconnect` handler (socket.ts lines 231-243): scan the
meeting rooms in insertion order, and for the first meeting whose
roster contains this `socketId` run `handleUserLeave`, then stop. -/
def handleDisconnect (sid now : String) (st : ServerState) : HandlerResult :=
  match st.meetingRooms.find? (fun e => e.2.any (fun p => p.socketId = sid)) with
  | none => { state := st, emits := [], calls := [] }
  | some e => handleUserLeave sid e.1 now st

/-- The runtime payload of a `chat:message` event
(`Partial<ChatMessage>`): every field may be absent. -/
structure ChatPayload where
  meetingId : Option String
  userId : Option String
  username : Option String
  message : Option String
deriving DecidableEq, Repr

/-- The `chat:message` handler (socket.ts lines 145-185).  `nowMs`
stands for `Date.now()` and `nowIso` for `new Date().toISOString()`.
Requires truthy `meetingId`, `userId` and `message` (else an error is
sent to the originator); silently drops a message that trims to the
empty string; otherwise broadcasts the trimmed message to the whole
room, stamped with a `messageId` derived from time and `socket.id`.
The handler mutates no state and makes no persistence call. -/
def handleChatMessage (sid : String) (p : ChatPayload) (nowMs : Nat)
    (nowIso : String) (st : ServerState) : List Emit :=
  if falsy p.meetingId ∨ falsy p.userId ∨ falsy p.message then
    [⟨Target.originator, SEvent.errorMsg "Meeting ID, User ID, and message are required"⟩]
  else
    let mid := p.meetingId.getD ""
    let uid := p.userId.getD ""
    let trimmedMessage := jsTrim (p.message.getD "")
    if trimmedMessage = "" then []
    else
      let participants := (mapGet mid st.meetingRooms).getD []
      let user := participants.find? (fun q => q.socketId = sid ∨ q.userId = uid)
      [⟨Target.room mid, SEvent.chatMsg
        { messageId := toString nowMs ++ "_" ++ sid,
          meetingId := mid,
          userId := uid,
          username := jsOr (user.bind (fun u => u.username)) p.username,
          message := trimmedMessage,
          timestamp := nowIso }⟩]

/-- The `typing:start` handler (socket.ts lines 190-202): silently
ignores the event when `meetingId` or `userId` is falsy, otherwise
notifies the others in the room; never touches state or persistence. -/
def handleTypingStart (mid uid : String) (uname : Option String) : List Emit :=
  if mid = "" ∨ uid = "" then []
  else [⟨Target.roomOthers mid, SEvent.typingStartEv uid uname⟩]

/-- The `typing:stop` handler (socket.ts lines 207-219): same guard and
audience as `typing:start`. -/
def handleTypingStop (mid uid : String) (uname : Option String) : List Emit :=
  if mid = "" ∨ uid = "" then []
  else [⟨Target.roomOthers mid, SEvent.typingStopEv uid uname⟩]

/-- One state transition of the coordinator: a join, an explicit leave,
or a disconnect, with arbitrary identifiers and timestamps.  `maxP` is
the process-wide `MAX_PARTICIPANTS` configuration. -/
inductive Step (maxP : Nat) : ServerState → ServerState → Prop where
  | join (sid mid uid : String) (uname : Option String) (now : String) (st : ServerState) :
      Step maxP st (joinMeeting maxP sid mid uid uname now st).state
  | leave (sid mid now : String) (st : ServerState) :
      Step maxP st (handleUserLeave sid mid now st).state
  | disconnect (sid now : String) (st : ServerState) :
      Step maxP st (handleDisconnect sid now st).state

/-- States reachable from a fresh process: the in-memory room map
starts empty, the durable store may hold any pre-existing meetings. -/
inductive Reachable (maxP : Nat) : ServerState → Prop where
  | init (store : List (String × MeetingDoc)) :
      Reachable maxP { meetingRooms := [], store := store }
  | step {s t : ServerState} : Reachable maxP s → Step maxP s t → Reachable maxP t

/-- Zero or more transitions. -/
inductive Steps (maxP : Nat) : ServerState → ServerState → Prop where
  | refl (s : ServerState) : Steps maxP s s
  | tail {s t u : ServerState} : Steps maxP s t → Step maxP t u → Steps maxP s u

/-- The roster of a meeting in a state (empty if no roster entry). -/
def rosterOf (st : ServerState) (mid : String) : List OnlineUser :=
  (mapGet mid st.meetingRooms).getD []

/-- The historical participant list recorded in a durable store for a
meeting (empty if the document does not exist). -/
def histIn (store : List (String × MeetingDoc)) (mid : String) : List String :=
  match mapGet mid store with
  | none => []
  | some doc => doc.participants

/-- The historical participant list of a meeting in a server state. -/
def histOf (st : ServerState) (mid : String) : List String :=
  histIn st.store mid

/-- Whether an emitted event is an `error` report. -/
def isErrorEv : SEvent → Bool
  | SEvent.errorMsg _ => true
  | _ => false

/-- Per-meeting roster uniqueness: within one meeting's roster no two
sessions share a `userId`. -/
def RostersUnique (st : ServerState) : Prop :=
  ∀ mid, ((rosterOf st mid).map OnlineUser.userId).Nodup

/-- A concrete meeting document used in the concrete scenarios below. -/
def docM : MeetingDoc :=
  { participants := ["u1"], activeParticipants := 1, updatedAt := "t0" }

/-- Roster entry: user `u1` connected on socket `s1` in meeting `M`. -/
def sesU1 : OnlineUser :=
  { socketId := "s1", userId := "u1", meetingId := "M", username := some "A", joinedAt := "t0" }

/-- Roster entry: user `u2` connected on socket `s2` in meeting `M`. -/
def sesU2 : OnlineUser :=
  { socketId := "s2", userId := "u2", meetingId := "M", username := some "B", joinedAt := "t0" }

/-- Concrete state: meeting `M` exists durably and `u1` is the only
session in its roster. -/
def stOne : ServerState :=
  { meetingRooms := [("M", [sesU1])], store := [("M", docM)] }

/-- Concrete state: meeting `M` exists durably and its roster holds the
two sessions `u1`@`s1` and `u2`@`s2`. -/
def stTwo : ServerState :=
  { meetingRooms := [("M", [sesU1, sesU2])], store := [("M", docM)] }

/-- Concrete fresh state: meeting `M` exists durably, no roster yet. -/
def stFresh : ServerState :=
  { meetingRooms := [], store := [("M", docM)] }

/-- Concrete state in which one physical connection `s` has joined
meeting `M` twice, under the two distinct userIds `u1` and `u2`: the
join handler deduplicates by `userId` only, so the second join appends
a second session with the same `socketId`. -/
def stDup : ServerState :=
  (joinMeeting 10 "s" "M" "u2" none "t0"
    (joinMeeting 10 "s" "M" "u1" none "t0" stFresh).state).state

/-! ### Lemmas about the `Map` helpers -/

theorem mapGet_mapSet_self {α : Type} (k : String) (v : α) (l : List (String × α)) :
    mapGet k (mapSet k v l) = some v := by
  induction l with
  | nil => simp [mapGet, mapSet]
  | cons e es ih =>
    by_cases h : e.1 = k
    · simp [mapSet, mapGet, h]
    · simp [mapSet, mapGet, h, ih]

theorem mapGet_mapSet_ne {α : Type} {k k' : String} (v : α) (l : List (String × α))
    (h : k' ≠ k) : mapGet k' (mapSet k v l) = mapGet k' l := by
  induction l with
  | nil => simp [mapGet, mapSet, Ne.symm h]
  | cons e es ih =>
    by_cases he : e.1 = k
    · have he' : e.1 ≠ k' := by rw [he]; exact Ne.symm h
      simp [mapSet, mapGet, he, he', Ne.symm h]
    · by_cases he2 : e.1 = k' <;> simp [mapSet, mapGet, he, he2, h, Ne.symm h, ih]

theorem mapGet_mapDelete_self {α : Type} (k : String) (l : List (String × α)) :
    mapGet k (mapDelete k l) = none := by
  induction l with
  | nil => rfl
  | cons e es ih =>
    by_cases h : e.1 = k
    · simp [mapDelete, h, ih]
    · simp [mapDelete, mapGet, h, ih]

theorem mapGet_mapDelete_ne {α : Type} {k k' : String} (l : List (String × α))
    (h : k' ≠ k) : mapGet k' (mapDelete k l) = mapGet k' l := by
  induction l with
  | nil => rfl
  | cons e es ih =>
    by_cases he : e.1 = k
    · have he' : e.1 ≠ k' := by rw [he]; exact Ne.symm h
      simp [mapDelete, mapGet, he, he', h, Ne.symm h, ih]
    · by_cases he2 : e.1 = k' <;> simp [mapDelete, mapGet, he, he2, h, Ne.symm h, ih]

/-! ### Lemmas about `updateFirst` and `removeFirst` -/

theorem length_updateFirst {α : Type} (p : α → Bool) (f : α → α) (l : List α) :
    (updateFirst p f l).length = l.length := by
  induction l with
  | nil => rfl
  | cons x xs ih => by_cases h : p x <;> simp [updateFirst, h, ih]

theorem map_updateFirst {α β : Type} (p : α → Bool) (f : α → α) (g : α → β)
    (hg : ∀ a, g (f a) = g a) (l : List α) :
    (updateFirst p f l).map g = l.map g := by
  induction l with
  | nil => rfl
  | cons x xs ih => by_cases h : p x <;> simp [updateFirst, h, ih, hg]

theorem removeFirst_eq_none {α : Type} (p : α → Bool) (l : List α)
    (h : ∀ x ∈ l, p x = false) : removeFirst p l = none := by
  induction l with
  | nil => rfl
  | cons x xs ih =>
    have hx := h x (List.mem_cons_self x xs)
    simp [removeFirst, hx, ih (fun y hy => h y (List.mem_cons_of_mem x hy))]

theorem removeFirst_eq_some {α : Type} (p : α → Bool) {l : List α} {x : α}
    {rest : List α} (h : removeFirst p l = some (x, rest)) :
    p x = true ∧ rest.Sublist l ∧ rest.countP p + 1 = l.countP p := by
  induction l generalizing x rest with
  | nil => simp [removeFirst] at h
  | cons a as ih =>
    by_cases ha : p a
    · simp [removeFirst, ha] at h
      obtain ⟨hx, hrest⟩ := h
      subst hx; subst hrest
      exact ⟨ha, List.sublist_cons_self a as, by simp [List.countP_cons_of_pos _ _ ha]⟩
    · cases hras : removeFirst p as with
      | none => simp [removeFirst, ha, hras] at h
      | some r =>
        obtain ⟨y, ys⟩ := r
        simp [removeFirst, ha, hras] at h
        obtain ⟨hxy, hrest⟩ := h
        obtain ⟨hpy, hsub, hcount⟩ := ih hras
        subst hxy; subst hrest
        refine ⟨hpy, List.Sublist.cons₂ a hsub, ?_⟩
        rw [List.countP_cons_of_neg _ _ (by simp [ha]), List.countP_cons_of_neg _ _ (by simp [ha])]
        exact hcount

/-! ### Lemmas about the persistence operations -/

theorem histIn_updateActiveParticipants (mid : String) (n : Nat) (now : String)
    (store : List (String × MeetingDoc)) (m : String) :
    histIn (updateActiveParticipants mid n now store) m = histIn store m := by
  unfold updateActiveParticipants
  cases hg : mapGet mid store with
  | none => rfl
  | some doc =>
    unfold histIn
    by_cases hm : m = mid
    · subst hm
      rw [mapGet_mapSet_self, hg]
    · rw [mapGet_mapSet_ne _ _ hm]

theorem histIn_addParticipant_sublist (mid uid now : String)
    (store : List (String × MeetingDoc)) (m : String) :
    (histIn store m).Sublist (histIn (addParticipantToMeeting mid uid now store) m) := by
  unfold addParticipantToMeeting
  cases hg : mapGet mid store with
  | none => exact List.Sublist.refl _
  | some doc =>
    dsimp only
    by_cases hin : uid ∈ doc.participants
    · rw [if_pos hin]
    · rw [if_neg hin]
      unfold histIn
      by_cases hm : m = mid
      · subst hm
        rw [mapGet_mapSet_self, hg]
        exact List.sublist_append_left _ _
      · rw [mapGet_mapSet_ne _ _ hm]

theorem addParticipant_noop_of_mem (mid uid now : String)
    (store : List (String × MeetingDoc)) (h : uid ∈ histIn store mid) :
    addParticipantToMeeting mid uid now store = store := by
  unfold addParticipantToMeeting
  cases hg : mapGet mid store with
  | none => rfl
  | some doc =>
    dsimp only
    rw [if_pos]
    unfold histIn at h
    rw [hg] at h
    exact h

/-! ### Branch characterizations of the join and leave handlers -/

theorem joinMeeting_validation (maxP : Nat) (sid mid uid : String) (uname : Option String)
    (now : String) (st : ServerState) (hval : mid = "" ∨ uid = "") :
    joinMeeting maxP sid mid uid uname now st =
      { state := st,
        emits := [⟨Target.originator, SEvent.errorMsg "Meeting ID and User ID are required"⟩],
        calls := [] } := by
  unfold joinMeeting
  rw [if_pos hval]

theorem joinMeeting_notFound (maxP : Nat) (sid mid uid : String) (uname : Option String)
    (now : String) (st : ServerState) (hval : ¬(mid = "" ∨ uid = ""))
    (hex : ¬ meetingExists mid st.store) :
    joinMeeting maxP sid mid uid uname now st =
      { state := st,
        emits := [⟨Target.originator, SEvent.errorMsg "Meeting not found"⟩],
        calls := [] } := by
  unfold joinMeeting
  rw [if_neg hval, if_pos hex]

theorem joinMeeting_full (maxP : Nat) (sid mid uid : String) (uname : Option String)
    (now : String) (st : ServerState) (hval : ¬(mid = "" ∨ uid = ""))
    (hex : meetingExists mid st.store)
    (hcap : maxP ≤ ((mapGet mid st.meetingRooms).getD []).length) :
    joinMeeting maxP sid mid uid uname now st =
      { state := st,
        emits := [⟨Target.originator,
          SEvent.errorMsg ("Meeting is full (maximum " ++ toString maxP ++ " participants)")⟩],
        calls := [] } := by
  unfold joinMeeting
  rw [if_neg hval, if_neg (not_not_intro hex), if_pos hcap]

theorem joinMeeting_success (maxP : Nat) (sid mid uid : String) (uname : Option String)
    (now : String) (st : ServerState) (hval : ¬(mid = "" ∨ uid = ""))
    (hex : meetingExists mid st.store)
    (hcap : ((mapGet mid st.meetingRooms).getD []).length < maxP) :
    joinMeeting maxP sid mid uid uname now st =
      (let cur := (mapGet mid st.meetingRooms).getD []
       let newP :=
         if cur.any (fun u => u.userId = uid) then
           updateFirst (fun u => u.userId = uid) (fun u => { u with socketId := sid }) cur
         else
           cur ++ [{ socketId := sid, userId := uid, meetingId := mid,
                     username := uname, joinedAt := now }]
       { state := { meetingRooms := mapSet mid newP st.meetingRooms,
                    store := updateActiveParticipants mid newP.length now
                      (addParticipantToMeeting mid uid now st.store) },
         emits := [⟨Target.room mid, snapshotOf mid newP⟩,
                   ⟨Target.roomOthers mid, SEvent.userJoined uid uname now⟩],
         calls := [PersistCall.addParticipant mid uid,
                   PersistCall.updateActiveCount mid newP.length] }) := by
  unfold joinMeeting
  rw [if_neg hval, if_neg (not_not_intro hex), if_neg (not_le.mpr hcap)]

theorem handleUserLeave_noRoster (sid mid now : String) (st : ServerState)
    (hg : mapGet mid st.meetingRooms = none) :
    handleUserLeave sid mid now st = { state := st, emits := [], calls := [] } := by
  unfold handleUserLeave
  rw [hg]

theorem handleUserLeave_notFound (sid mid now : String) (st : ServerState)
    (ps : List OnlineUser) (hg : mapGet mid st.meetingRooms = some ps)
    (hr : removeFirst (fun p => p.socketId = sid) ps = none) :
    handleUserLeave sid mid now st = { state := st, emits := [], calls := [] } := by
  unfold handleUserLeave
  rw [hg]
  dsimp only
  rw [hr]

theorem handleUserLeave_found (sid mid now : String) (st : ServerState)
    (ps : List OnlineUser) (u : OnlineUser) (rest : List OnlineUser)
    (hg : mapGet mid st.meetingRooms = some ps)
    (hr : removeFirst (fun p => p.socketId = sid) ps = some (u, rest)) :
    handleUserLeave sid mid now st =
      { state := { meetingRooms :=
                     if rest.length = 0 then mapDelete mid st.meetingRooms
                     else mapSet mid rest st.meetingRooms,
                   store := updateActiveParticipants mid rest.length now st.store },
        emits := [⟨Target.room mid, SEvent.userLeft u.userId u.username now⟩,
                  ⟨Target.room mid, snapshotOf mid rest⟩],
        calls := [PersistCall.updateActiveCount mid rest.length] } := by
  unfold handleUserLeave
  rw [hg]
  dsimp only
  rw [hr]

/-! ### Per-transition preservation of roster uniqueness -/

theorem rostersUnique_join (maxP : Nat) (sid mid uid : String) (uname : Option String)
    (now : String) (st : ServerState) (h : RostersUnique st) :
    RostersUnique (joinMeeting maxP sid mid uid uname now st).state := by
  by_cases hval : mid = "" ∨ uid = ""
  · rw [joinMeeting_validation maxP sid mid uid uname now st hval]; exact h
  · by_cases hex : meetingExists mid st.store
    · by_cases hcap : ((mapGet mid st.meetingRooms).getD []).length < maxP
      · rw [joinMeeting_success maxP sid mid uid uname now st hval hex hcap]
        intro m
        dsimp only
        by_cases hm : m = mid
        · subst hm
          simp only [rosterOf, mapGet_mapSet_self, Option.getD_some]
          by_cases hany : ((mapGet m st.meetingRooms).getD []).any (fun u => u.userId = uid)
          · rw [if_pos hany,
              map_updateFirst (fun u => u.userId = uid)
                (fun u => { u with socketId := sid }) OnlineUser.userId (fun a => rfl)]
            exact h m
          · rw [if_neg hany, List.map_append]
            refine List.Nodup.append (h m) (List.nodup_singleton uid) ?_
            intro a ha hb
            simp only [List.map_cons, List.map_nil, List.mem_singleton] at hb
            subst hb
            apply hany
            rw [List.mem_map] at ha
            obtain ⟨u, hu, hua⟩ := ha
            rw [List.any_eq_true]
            exact ⟨u, hu, by simp [hua]⟩
        · simp only [rosterOf]
          rw [mapGet_mapSet_ne _ _ hm]
          exact h m
      · rw [joinMeeting_full maxP sid mid uid uname now st hval hex (not_lt.mp hcap)]
        exact h
    · rw [joinMeeting_notFound maxP sid mid uid uname now st hval hex]
      exact h

theorem rostersUnique_leave (sid mid now : String) (st : ServerState)
    (h : RostersUnique st) :
    RostersUnique (handleUserLeave sid mid now st).state := by
  cases hg : mapGet mid st.meetingRooms with
  | none => rw [handleUserLeave_noRoster sid mid now st hg]; exact h
  | some ps =>
    cases hr : removeFirst (fun p => p.socketId = sid) ps with
    | none => rw [handleUserLeave_notFound sid mid now st ps hg hr]; exact h
    | some ur =>
      obtain ⟨u, rest⟩ := ur
      rw [handleUserLeave_found sid mid now st ps u rest hg hr]
      obtain ⟨-, hsub, -⟩ := removeFirst_eq_some _ hr
      have hps : ((ps.map OnlineUser.userId).Nodup) := by
        have hm := h mid
        simp only [rosterOf, hg, Option.getD_some] at hm
        exact hm
      have hrest : ((rest.map OnlineUser.userId).Nodup) :=
        List.Nodup.sublist (List.Sublist.map _ hsub) hps
      intro m
      dsimp only
      by_cases hlen : rest.length = 0
      · rw [if_pos hlen]
        by_cases hm : m = mid
        · subst hm
          simp [rosterOf, mapGet_mapDelete_self]
        · simp only [rosterOf]
          rw [mapGet_mapDelete_ne _ hm]
          exact h m
      · rw [if_neg hlen]
        by_cases hm : m = mid
        · subst hm
          simp only [rosterOf, mapGet_mapSet_self, Option.getD_some]
          exact hrest
        · simp only [rosterOf]
          rw [mapGet_mapSet_ne _ _ hm]
          exact h m

theorem rostersUnique_disconnect (sid now : String) (st : ServerState)
    (h : RostersUnique st) :
    RostersUnique (handleDisconnect sid now st).state := by
  unfold handleDisconnect
  cases hf : st.meetingRooms.find? (fun e => e.2.any (fun p => p.socketId = sid)) with
  | none => exact h
  | some e => exact rostersUnique_leave sid e.1 now st h

/-! ### The durable historical participant list across transitions -/

theorem histOf_join_sublist (maxP : Nat) (sid mid uid : String) (uname : Option String)
    (now : String) (st : ServerState) (m : String) :
    (histOf st m).Sublist (histOf (joinMeeting maxP sid mid uid uname now st).state m) := by
  by_cases hval : mid = "" ∨ uid = ""
  · rw [joinMeeting_validation maxP sid mid uid uname now st hval]
  · by_cases hex : meetingExists mid st.store
    · by_cases hcap : ((mapGet mid st.meetingRooms).getD []).length < maxP
      · rw [joinMeeting_success maxP sid mid uid uname now st hval hex hcap]
        dsimp only
        unfold histOf
        dsimp only
        rw [histIn_updateActiveParticipants]
        exact histIn_addParticipant_sublist mid uid now st.store m
      · rw [joinMeeting_full maxP sid mid uid uname now st hval hex (not_lt.mp hcap)]
    · rw [joinMeeting_notFound maxP sid mid uid uname now st hval hex]

theorem histOf_leave_eq (sid mid now : String) (st : ServerState) (m : String) :
    histOf (handleUserLeave sid mid now st).state m = histOf st m := by
  cases hg : mapGet mid st.meetingRooms with
  | none => rw [handleUserLeave_noRoster sid mid now st hg]
  | some ps =>
    cases hr : removeFirst (fun p => p.socketId = sid) ps with
    | none => rw [handleUserLeave_notFound sid mid now st ps hg hr]
    | some ur =>
      obtain ⟨u, rest⟩ := ur
      rw [handleUserLeave_found sid mid now st ps u rest hg hr]
      unfold histOf
      dsimp only
      rw [histIn_updateActiveParticipants]

theorem histOf_disconnect_eq (sid now : String) (st : ServerState) (m : String) :
    histOf (handleDisconnect sid now st).state m = histOf st m := by
  unfold handleDisconnect
  cases hf : st.meetingRooms.find? (fun e => e.2.any (fun p => p.socketId = sid)) with
  | none => rfl
  | some e => exact histOf_leave_eq sid e.1 now st m

theorem histOf_step_sublist (maxP : Nat) {s t : ServerState} (hstep : Step maxP s t)
    (m : String) : (histOf s m).Sublist (histOf t m) := by
  cases hstep with
  | join sid mid uid uname now => exact histOf_join_sublist maxP sid mid uid uname now s m
  | leave sid mid now => rw [histOf_leave_eq sid mid now s m]
  | disconnect sid now => rw [histOf_disconnect_eq sid now s m]

theorem histOf_steps_sublist (maxP : Nat) {s t : ServerState} (h : Steps maxP s t)
    (m : String) : (histOf s m).Sublist (histOf t m) := by
  induction h with
  | refl => exact List.Sublist.refl _
  | tail h1 h2 ih => exact List.Sublist.trans ih (histOf_step_sublist maxP h2 m)

/-! ### Active-count persistence calls report the new roster length -/

theorem leave_updateCount_matches (sid mid now : String) (st : ServerState)
    (m : String) (n : Nat)
    (hmem : PersistCall.updateActiveCount m n ∈ (handleUserLeave sid mid now st).calls) :
    n = (rosterOf (handleUserLeave sid mid now st).state m).length := by
  cases hg : mapGet mid st.meetingRooms with
  | none =>
    rw [handleUserLeave_noRoster sid mid now st hg] at hmem
    simp at hmem
  | some ps =>
    cases hr : removeFirst (fun p => p.socketId = sid) ps with
    | none =>
      rw [handleUserLeave_notFound sid mid now st ps hg hr] at hmem
      simp at hmem
    | some ur =>
      obtain ⟨u, rest⟩ := ur
      rw [handleUserLeave_found sid mid now st ps u rest hg hr] at hmem ⊢
      simp only [List.mem_singleton, PersistCall.updateActiveCount.injEq] at hmem
      obtain ⟨hm, hn⟩ := hmem
      subst hm; subst hn
      dsimp only
      by_cases hlen : rest.length = 0
      · rw [if_pos hlen]
        simp only [rosterOf, mapGet_mapDelete_self, Option.getD_none, List.length_nil]
        exact hlen
      · rw [if_neg hlen]
        simp only [rosterOf, mapGet_mapSet_self, Option.getD_some]

/-! ### The claims -/

/-- C1 (counterexample): the capacity check is NOT bypassed on
reconnect.  In the concrete state `stTwo` the roster of meeting `M`
already holds `maxParticipants = 2` sessions and contains userId `u1`;
a join request for `u1` from a new connection `s9` is rejected with the
capacity error and changes nothing, instead of replacing the session's
`connectionId` as the claim asserts. -/
theorem claim1_counterexample :
    joinMeeting 2 "s9" "M" "u1" (some "A") "t1" stTwo =
      { state := stTwo,
        emits := [⟨Target.originator,
          SEvent.errorMsg "Meeting is full (maximum 2 participants)"⟩],
        calls := [] } := by decide

/-- C1 (amended): the join handler checks capacity before looking for
an already-present `userId`, so a reconnect is admitted only while the
roster is below the configured maximum.  At capacity, even a join whose
`userId` is already in the roster fails with the capacity error and
mutates nothing; below capacity, the reconnect replaces that session's
`connectionId` in place, leaves the roster length unchanged, and
signals no error. -/
theorem claim1_amended_reconnect_capacity (maxP : Nat) (sid mid uid : String)
    (uname : Option String) (now : String) (st : ServerState)
    (hmid : mid ≠ "") (huid : uid ≠ "")
    (hex : meetingExists mid st.store)
    (hpresent : (rosterOf st mid).any (fun u => u.userId = uid)) :
    (maxP ≤ (rosterOf st mid).length →
      joinMeeting maxP sid mid uid uname now st =
        { state := st,
          emits := [⟨Target.originator,
            SEvent.errorMsg ("Meeting is full (maximum " ++ toString maxP ++ " participants)")⟩],
          calls := [] }) ∧
    ((rosterOf st mid).length < maxP →
      rosterOf (joinMeeting maxP sid mid uid uname now st).state mid =
        updateFirst (fun u => u.userId = uid) (fun u => { u with socketId := sid })
          (rosterOf st mid) ∧
      (rosterOf (joinMeeting maxP sid mid uid uname now st).state mid).length =
        (rosterOf st mid).length ∧
      ((joinMeeting maxP sid mid uid uname now st).emits.all
        (fun e => !(isErrorEv e.ev))) = true) := by
  have hval : ¬(mid = "" ∨ uid = "") := not_or.mpr ⟨hmid, huid⟩
  constructor
  · intro hcap
    exact joinMeeting_full maxP sid mid uid uname now st hval hex hcap
  · intro hcap
    have hpresent2 : ((mapGet mid st.meetingRooms).getD []).any (fun u => u.userId = uid) = true :=
      hpresent
    rw [joinMeeting_success maxP sid mid uid uname now st hval hex hcap]
    dsimp only
    rw [if_pos hpresent2]
    refine ⟨?_, ?_, rfl⟩
    · simp only [rosterOf, mapGet_mapSet_self, Option.getD_some]
    · simp only [rosterOf, mapGet_mapSet_self, Option.getD_some]
      exact length_updateFirst _ _ _

/-- C1 (witness): the amended theorem applied to the concrete states
`stTwo` (roster at a maximum of 2, reconnect rejected) and `stTwo` with
maximum 3 (reconnect admitted in place). -/
theorem claim1_amended_witness :
    (joinMeeting 2 "s9" "M" "u1" (some "A") "t1" stTwo =
      { state := stTwo,
        emits := [⟨Target.originator,
          SEvent.errorMsg ("Meeting is full (maximum " ++ toString 2 ++ " participants)")⟩],
        calls := [] }) ∧
    (rosterOf (joinMeeting 3 "s9" "M" "u1" (some "A") "t1" stTwo).state "M" =
        updateFirst (fun u => u.userId = "u1") (fun u => { u with socketId := "s9" })
          (rosterOf stTwo "M") ∧
      (rosterOf (joinMeeting 3 "s9" "M" "u1" (some "A") "t1" stTwo).state "M").length =
        (rosterOf stTwo "M").length ∧
      ((joinMeeting 3 "s9" "M" "u1" (some "A") "t1" stTwo).emits.all
        (fun e => !(isErrorEv e.ev))) = true) :=
  ⟨(claim1_amended_reconnect_capacity 2 "s9" "M" "u1" (some "A") "t1" stTwo
      (by decide) (by decide) (by decide) (by decide)).1 (by decide),
   (claim1_amended_reconnect_capacity 3 "s9" "M" "u1" (some "A") "t1" stTwo
      (by decide) (by decide) (by decide) (by decide)).2 (by decide)⟩

/-- C2: when a meeting's roster already holds `N = maxParticipants`
sessions with distinct userIds and the meeting exists durably, a join
with a fresh distinct `userId` is rejected: the only emission is the
capacity error, with the configured limit embedded, sent to the
originator; the state (roster and store) is unchanged and no
persistence call is made. -/
theorem claim2_capacity_rejected (maxP : Nat) (sid mid uid : String)
    (uname : Option String) (now : String) (st : ServerState)
    (hmid : mid ≠ "") (huid : uid ≠ "")
    (hex : meetingExists mid st.store)
    (hlen : (rosterOf st mid).length = maxP)
    (hdistinct : ((rosterOf st mid).map OnlineUser.userId).Nodup)
    (hnew : uid ∉ (rosterOf st mid).map OnlineUser.userId) :
    joinMeeting maxP sid mid uid uname now st =
      { state := st,
        emits := [⟨Target.originator,
          SEvent.errorMsg ("Meeting is full (maximum " ++ toString maxP ++ " participants)")⟩],
        calls := [] } :=
  joinMeeting_full maxP sid mid uid uname now st (not_or.mpr ⟨hmid, huid⟩) hex
    (le_of_eq hlen.symm)

/-- C2 (witness): in `stTwo` the roster of `M` holds the 2 = maximum
distinct users `u1`, `u2`; the join of the fresh `u3` is rejected. -/
theorem claim2_witness :
    joinMeeting 2 "s3" "M" "u3" (some "C") "t1" stTwo =
      { state := stTwo,
        emits := [⟨Target.originator,
          SEvent.errorMsg ("Meeting is full (maximum " ++ toString 2 ++ " participants)")⟩],
        calls := [] } :=
  claim2_capacity_rejected 2 "s3" "M" "u3" (some "C") "t1" stTwo (by decide) (by decide)
    (by decide) (by decide) (by decide) (by decide)

/-- C3: in every state reachable by joins, leaves and disconnects, no
two sessions of one meeting's roster share a `userId`; moreover a join
whose `userId` is already present never changes the roster's `userId`
list (it only rewrites the existing record in place). -/
theorem claim3_roster_userId_unique (maxP : Nat) (st : ServerState)
    (h : Reachable maxP st) :
    RostersUnique st ∧
    (∀ (sid mid uid : String) (uname : Option String) (now : String),
      (rosterOf st mid).any (fun u => u.userId = uid) →
      (rosterOf (joinMeeting maxP sid mid uid uname now st).state mid).map OnlineUser.userId =
        (rosterOf st mid).map OnlineUser.userId) := by
  constructor
  · induction h with
    | init store => intro m; simp [rosterOf, mapGet]
    | step hre hstep ih =>
      cases hstep with
      | join sid mid uid uname now => exact rostersUnique_join maxP sid mid uid uname _ _ ih
      | leave sid mid now => exact rostersUnique_leave sid mid now _ ih
      | disconnect sid now => exact rostersUnique_disconnect sid now _ ih
  · intro sid mid uid uname now hany
    by_cases hval : mid = "" ∨ uid = ""
    · rw [joinMeeting_validation maxP sid mid uid uname now st hval]
    · by_cases hex : meetingExists mid st.store
      · by_cases hcap : ((mapGet mid st.meetingRooms).getD []).length < maxP
        · have hany2 : ((mapGet mid st.meetingRooms).getD []).any (fun u => u.userId = uid) = true :=
            hany
          rw [joinMeeting_success maxP sid mid uid uname now st hval hex hcap]
          dsimp only
          rw [if_pos hany2]
          simp only [rosterOf, mapGet_mapSet_self, Option.getD_some]
          exact map_updateFirst (fun u => u.userId = uid)
            (fun u => { u with socketId := sid }) OnlineUser.userId (fun a => rfl) _
        · rw [joinMeeting_full maxP sid mid uid uname now st hval hex (not_lt.mp hcap)]
      · rw [joinMeeting_notFound maxP sid mid uid uname now st hval hex]

/-- C3 (witness): the invariant instantiated at a concrete reachable
state, obtained from a fresh process by one join into meeting `M`. -/
theorem claim3_witness :
    RostersUnique (joinMeeting 10 "s1" "M" "u1" (some "A") "t0" stFresh).state :=
  (claim3_roster_userId_unique 10 _
    (Reachable.step (Reachable.init [("M", docM)])
      (Step.join "s1" "M" "u1" (some "A") "t0" stFresh))).1

/-- C4 (counterexample): on the concrete reconnect of `u1` in `stOne`
(new connection `s9`, roster below capacity) the handler replaces the
session's `connectionId` in place, yet it still emits the
`user:joined` broadcast to the other members, contradicting the claim
that only the presence snapshot is sent. -/
theorem claim4_counterexample :
    (rosterOf (joinMeeting 10 "s9" "M" "u1" (some "A") "t1" stOne).state "M" =
      [{ socketId := "s9", userId := "u1", meetingId := "M", username := some "A",
         joinedAt := "t0" }]) ∧
    ⟨Target.roomOthers "M", SEvent.userJoined "u1" (some "A") "t1"⟩ ∈
      (joinMeeting 10 "s9" "M" "u1" (some "A") "t1" stOne).emits := by decide

/-- C4 (amended): a successful reconnect (valid identifiers, existing
meeting, `userId` already present, roster below capacity) changes that
session's `connectionId` in place and leaves the roster length
unchanged, but the handler emits both the refreshed presence snapshot
to the room and the `user:joined` broadcast to the other members. -/
theorem claim4_amended_reconnect_emits (maxP : Nat) (sid mid uid : String)
    (uname : Option String) (now : String) (st : ServerState)
    (hmid : mid ≠ "") (huid : uid ≠ "")
    (hex : meetingExists mid st.store)
    (hcap : (rosterOf st mid).length < maxP)
    (hpresent : (rosterOf st mid).any (fun u => u.userId = uid)) :
    rosterOf (joinMeeting maxP sid mid uid uname now st).state mid =
      updateFirst (fun u => u.userId = uid) (fun u => { u with socketId := sid })
        (rosterOf st mid) ∧
    (rosterOf (joinMeeting maxP sid mid uid uname now st).state mid).length =
      (rosterOf st mid).length ∧
    (joinMeeting maxP sid mid uid uname now st).emits =
      [⟨Target.room mid, snapshotOf mid
        (updateFirst (fun u => u.userId = uid) (fun u => { u with socketId := sid })
          (rosterOf st mid))⟩,
       ⟨Target.roomOthers mid, SEvent.userJoined uid uname now⟩] := by
  have hval : ¬(mid = "" ∨ uid = "") := not_or.mpr ⟨hmid, huid⟩
  have hpresent2 : ((mapGet mid st.meetingRooms).getD []).any (fun u => u.userId = uid) = true :=
    hpresent
  rw [joinMeeting_success maxP sid mid uid uname now st hval hex hcap]
  dsimp only
  rw [if_pos hpresent2]
  refine ⟨?_, ?_, rfl⟩
  · simp only [rosterOf, mapGet_mapSet_self, Option.getD_some]
  · simp only [rosterOf, mapGet_mapSet_self, Option.getD_some]
    exact length_updateFirst _ _ _

/-- C4 (witness): the amended theorem on the concrete reconnect of
`u1` in `stOne` from the new connection `s9`. -/
theorem claim4_amended_witness :
    rosterOf (joinMeeting 10 "s9" "M" "u1" (some "A") "t1" stOne).state "M" =
      updateFirst (fun u => u.userId = "u1") (fun u => { u with socketId := "s9" })
        (rosterOf stOne "M") ∧
    (rosterOf (joinMeeting 10 "s9" "M" "u1" (some "A") "t1" stOne).state "M").length =
      (rosterOf stOne "M").length ∧
    (joinMeeting 10 "s9" "M" "u1" (some "A") "t1" stOne).emits =
      [⟨Target.room "M", snapshotOf "M"
        (updateFirst (fun u => u.userId = "u1") (fun u => { u with socketId := "s9" })
          (rosterOf stOne "M"))⟩,
       ⟨Target.roomOthers "M", SEvent.userJoined "u1" (some "A") "t1"⟩] :=
  claim4_amended_reconnect_emits 10 "s9" "M" "u1" (some "A") "t1" stOne
    (by decide) (by decide) (by decide) (by decide) (by decide)

/-- C5: the durable historical participant set never shrinks.  Across
any sequence of joins, leaves and disconnects the recorded list only
grows (sublist order); the join-side persistence appends a `userId`
only when it is absent (a no-op when already recorded); and the
leave/disconnect path never touches the historical list. -/
theorem claim5_historical_monotone :
    (∀ (maxP : Nat) (s t : ServerState) (m : String), Steps maxP s t →
      (histOf s m).Sublist (histOf t m)) ∧
    (∀ (mid uid now : String) (store : List (String × MeetingDoc)),
      uid ∈ histIn store mid → addParticipantToMeeting mid uid now store = store) ∧
    (∀ (sid mid now : String) (st : ServerState) (m : String),
      histOf (handleUserLeave sid mid now st).state m = histOf st m) ∧
    (∀ (sid now : String) (st : ServerState) (m : String),
      histOf (handleDisconnect sid now st).state m = histOf st m) :=
  ⟨fun maxP s t m h => histOf_steps_sublist maxP h m,
   fun mid uid now store h => addParticipant_noop_of_mem mid uid now store h,
   fun sid mid now st m => histOf_leave_eq sid mid now st m,
   fun sid now st m => histOf_disconnect_eq sid now st m⟩

/-- C5 (witness): the monotonicity theorem at the concrete one-join
sequence from `stFresh`, the append-once no-op for the already-recorded
`u1`, and the leave/disconnect preservation on `stOne`. -/
theorem claim5_witness :
    (histOf stFresh "M").Sublist
      (histOf (joinMeeting 10 "s1" "M" "u1" (some "A") "t0" stFresh).state "M") ∧
    addParticipantToMeeting "M" "u1" "t9" [("M", docM)] = [("M", docM)] ∧
    histOf (handleUserLeave "s1" "M" "t9" stOne).state "M" = histOf stOne "M" ∧
    histOf (handleDisconnect "s1" "t9" stOne).state "M" = histOf stOne "M" :=
  ⟨claim5_historical_monotone.1 10 stFresh _ "M"
      (Steps.tail (Steps.refl stFresh) (Step.join "s1" "M" "u1" (some "A") "t0" stFresh)),
   claim5_historical_monotone.2.1 "M" "u1" "t9" [("M", docM)] (by decide),
   claim5_historical_monotone.2.2.1 "s1" "M" "t9" stOne "M",
   claim5_historical_monotone.2.2.2 "s1" "t9" stOne "M"⟩

/-- C6: whenever a join, a leave or a disconnect issues an
`updateActiveCount` persistence call, the count it carries equals the
length of that meeting's roster in the resulting state. -/
theorem claim6_active_count_matches :
    (∀ (maxP : Nat) (sid mid uid : String) (uname : Option String) (now : String)
        (st : ServerState) (m : String) (n : Nat),
      PersistCall.updateActiveCount m n ∈ (joinMeeting maxP sid mid uid uname now st).calls →
      n = (rosterOf (joinMeeting maxP sid mid uid uname now st).state m).length) ∧
    (∀ (sid mid now : String) (st : ServerState) (m : String) (n : Nat),
      PersistCall.updateActiveCount m n ∈ (handleUserLeave sid mid now st).calls →
      n = (rosterOf (handleUserLeave sid mid now st).state m).length) ∧
    (∀ (sid now : String) (st : ServerState) (m : String) (n : Nat),
      PersistCall.updateActiveCount m n ∈ (handleDisconnect sid now st).calls →
      n = (rosterOf (handleDisconnect sid now st).state m).length) := by
  refine ⟨?_, ?_, ?_⟩
  · intro maxP sid mid uid uname now st m n hmem
    by_cases hval : mid = "" ∨ uid = ""
    · rw [joinMeeting_validation maxP sid mid uid uname now st hval] at hmem
      simp at hmem
    · by_cases hex : meetingExists mid st.store
      · by_cases hcap : ((mapGet mid st.meetingRooms).getD []).length < maxP
        · rw [joinMeeting_success maxP sid mid uid uname now st hval hex hcap] at hmem ⊢
          dsimp only at hmem ⊢
          simp only [List.mem_cons, List.mem_singleton, List.not_mem_nil, or_false] at hmem
          rcases hmem with h | h
          · exact absurd h (by simp)
          · obtain ⟨hm, hn⟩ := PersistCall.updateActiveCount.inj h
            subst hm
            subst hn
            simp only [rosterOf, mapGet_mapSet_self, Option.getD_some]
        · rw [joinMeeting_full maxP sid mid uid uname now st hval hex (not_lt.mp hcap)] at hmem
          simp at hmem
      · rw [joinMeeting_notFound maxP sid mid uid uname now st hval hex] at hmem
        simp at hmem
  · intro sid mid now st m n hmem
    exact leave_updateCount_matches sid mid now st m n hmem
  · intro sid now st m n hmem
    cases hf : st.meetingRooms.find? (fun e => e.2.any (fun p => p.socketId = sid)) with
    | none =>
      have hd : handleDisconnect sid now st = { state := st, emits := [], calls := [] } := by
        unfold handleDisconnect
        rw [hf]
      rw [hd] at hmem
      simp at hmem
    | some e =>
      have hd : handleDisconnect sid now st = handleUserLeave sid e.1 now st := by
        unfold handleDisconnect
        rw [hf]
      rw [hd] at hmem ⊢
      exact leave_updateCount_matches sid e.1 now st m n hmem

/-- C6 (witness): the first join into `M` persists active count 1, the
length of the new one-element roster. -/
theorem claim6_witness :
    (1 : Nat) = (rosterOf (joinMeeting 10 "s1" "M" "u1" (some "A") "t0" stFresh).state "M").length :=
  claim6_active_count_matches.1 10 "s1" "M" "u1" (some "A") "t0" stFresh "M" 1 (by decide)

/-- C7 (counterexample): in the reachable state `stDup` (one physical
connection `s` joined meeting `M` under the two userIds `u1` and `u2`)
the roster holds two sessions with the same `connectionId`, and the
second Remove for `s` is not a no-op: it removes the second session,
so the state after the second call differs from the state after the
first. -/
theorem claim7_counterexample :
    rosterOf stDup "M" =
      [{ socketId := "s", userId := "u1", meetingId := "M", username := none, joinedAt := "t0" },
       { socketId := "s", userId := "u2", meetingId := "M", username := none, joinedAt := "t0" }] ∧
    (handleUserLeave "s" "M" "t2" (handleUserLeave "s" "M" "t1" stDup).state).state ≠
      (handleUserLeave "s" "M" "t1" stDup).state := by decide

/-- C7 (amended): Remove is a no-op (no mutation, no emission, no
persistence call) when no session with the given `connectionId` is in
the roster; and provided at most one session of the roster carries that
`connectionId` (as is the case when each connection joins under a
single `userId`), calling Remove twice leaves the state after the first
call unchanged.  When the same connection has joined under several
userIds, each call removes one matching session. -/
theorem claim7_amended_remove_idempotent (sid mid now now2 : String) (st : ServerState) :
    ((rosterOf st mid).any (fun p => p.socketId = sid) = false →
      handleUserLeave sid mid now st = { state := st, emits := [], calls := [] }) ∧
    ((rosterOf st mid).countP (fun p => p.socketId = sid) ≤ 1 →
      handleUserLeave sid mid now2 (handleUserLeave sid mid now st).state =
        { state := (handleUserLeave sid mid now st).state, emits := [], calls := [] }) := by
  constructor
  · intro hany
    cases hg : mapGet mid st.meetingRooms with
    | none => exact handleUserLeave_noRoster sid mid now st hg
    | some ps =>
      have hros : rosterOf st mid = ps := by simp only [rosterOf, hg, Option.getD_some]
      rw [hros] at hany
      refine handleUserLeave_notFound sid mid now st ps hg (removeFirst_eq_none _ _ ?_)
      intro x hx
      have := List.any_eq_false.mp hany x hx
      simpa using this
  · intro hcount
    cases hg : mapGet mid st.meetingRooms with
    | none =>
      rw [handleUserLeave_noRoster sid mid now st hg]
      exact handleUserLeave_noRoster sid mid now2 st hg
    | some ps =>
      cases hr : removeFirst (fun p => p.socketId = sid) ps with
      | none =>
        rw [handleUserLeave_notFound sid mid now st ps hg hr]
        exact handleUserLeave_notFound sid mid now2 st ps hg hr
      | some ur =>
        obtain ⟨u, rest⟩ := ur
        obtain ⟨hpu, hsub, hcnt⟩ := removeFirst_eq_some _ hr
        have hros : rosterOf st mid = ps := by simp only [rosterOf, hg, Option.getD_some]
        rw [hros] at hcount
        have hrest0 : rest.countP (fun p => p.socketId = sid) = 0 := by omega
        have hall : ∀ x ∈ rest, ((fun p => (p.socketId = sid : Bool)) x) = false := by
          intro x hx
          have := List.countP_eq_zero.mp hrest0 x hx
          simpa using this
        rw [handleUserLeave_found sid mid now st ps u rest hg hr]
        dsimp only
        by_cases hlen : rest.length = 0
        · rw [if_pos hlen]
          exact handleUserLeave_noRoster sid mid now2 _ (mapGet_mapDelete_self mid st.meetingRooms)
        · rw [if_neg hlen]
          exact handleUserLeave_notFound sid mid now2 _ rest
            (mapGet_mapSet_self mid rest st.meetingRooms) (removeFirst_eq_none _ _ hall)

/-- C7 (witness): the amended theorem on `stOne`: Remove for the absent
connection `sX` is a no-op, and the second Remove for `s1` (present
exactly once) is a no-op. -/
theorem claim7_amended_witness :
    ((rosterOf stOne "M").any (fun p => p.socketId = "sX") = false ∧
      handleUserLeave "sX" "M" "t1" stOne = { state := stOne, emits := [], calls := [] }) ∧
    ((rosterOf stOne "M").countP (fun p => p.socketId = "s1") ≤ 1 ∧
      handleUserLeave "s1" "M" "t2" (handleUserLeave "s1" "M" "t1" stOne).state =
        { state := (handleUserLeave "s1" "M" "t1" stOne).state, emits := [], calls := [] }) :=
  ⟨⟨by decide, (claim7_amended_remove_idempotent "sX" "M" "t1" "t2" stOne).1 (by decide)⟩,
   ⟨by decide, (claim7_amended_remove_idempotent "s1" "M" "t1" "t2" stOne).2 (by decide)⟩⟩

/-- C8 (counterexample): a `typing:start` with empty `meetingId` and a
`typing:stop` with empty `userId` produce no emission at all -- in
particular no ValidationError is reported to the originator,
contradicting the claim. -/
theorem claim8_counterexample :
    handleTypingStart "" "u1" (some "A") = [] ∧
    handleTypingStop "M" "" (some "A") = [] := by decide

/-- C8 (amended): a join missing a non-empty `meetingId` or `userId`
is answered with a ValidationError sent only to the originating
connection, with no state change and no persistence call; a
typing-start/stop missing `meetingId` or `userId` is silently ignored:
nothing is emitted and nothing changes. -/
theorem claim8_amended_validation (maxP : Nat) (sid mid uid : String)
    (uname : Option String) (now : String) (st : ServerState)
    (hval : mid = "" ∨ uid = "") :
    joinMeeting maxP sid mid uid uname now st =
      { state := st,
        emits := [⟨Target.originator, SEvent.errorMsg "Meeting ID and User ID are required"⟩],
        calls := [] } ∧
    handleTypingStart mid uid uname = [] ∧
    handleTypingStop mid uid uname = [] := by
  refine ⟨joinMeeting_validation maxP sid mid uid uname now st hval, ?_, ?_⟩
  · unfold handleTypingStart
    rw [if_pos hval]
  · unfold handleTypingStop
    rw [if_pos hval]

/-- C8 (witness): the amended theorem at the concrete join and typing
events with an empty `meetingId`. -/
theorem claim8_amended_witness :
    joinMeeting 10 "s1" "" "u1" (some "A") "t0" stOne =
      { state := stOne,
        emits := [⟨Target.originator, SEvent.errorMsg "Meeting ID and User ID are required"⟩],
        calls := [] } ∧
    handleTypingStart "" "u1" (some "A") = [] ∧
    handleTypingStop "" "u1" (some "A") = [] :=
  claim8_amended_validation 10 "s1" "" "u1" (some "A") "t0" stOne (by decide)

/-- C9 (counterexample): the chat message " hi " sent by `u1` in `M`
is broadcast with message text "hi": the handler trims the text, so the
delivered payload does not carry the message unmodified. -/
theorem claim9_counterexample :
    handleChatMessage "s1"
      { meetingId := some "M", userId := some "u1", username := none, message := some " hi " }
      123 "t3" stOne =
      [⟨Target.room "M", SEvent.chatMsg
        { messageId := "123_s1", meetingId := "M", userId := "u1",
          username := some "A", message := "hi", timestamp := "t3" }⟩] ∧
    ("hi" : String) ≠ " hi " := by decide

/-- C9 (amended): a chat-message with truthy `meetingId`, `userId` and
`message` whose text does not trim to empty is broadcast exactly once,
to every connection in the room (sender included), carrying the
whitespace-trimmed message text together with the server-stamped
`messageId` (current time and connection identity) and `timestamp`;
the username is resolved from the roster, falling back to the payload.
-/
theorem claim9_amended_broadcast (sid mid uid msg : String) (puname : Option String)
    (nowMs : Nat) (nowIso : String) (st : ServerState)
    (hmid : mid ≠ "") (huid : uid ≠ "") (hmsg : msg ≠ "") (htrim : jsTrim msg ≠ "") :
    handleChatMessage sid
      { meetingId := some mid, userId := some uid, username := puname, message := some msg }
      nowMs nowIso st =
      [⟨Target.room mid, SEvent.chatMsg
        { messageId := toString nowMs ++ "_" ++ sid,
          meetingId := mid, userId := uid,
          username := jsOr ((((mapGet mid st.meetingRooms).getD []).find?
            (fun q => q.socketId = sid ∨ q.userId = uid)).bind (fun u => u.username)) puname,
          message := jsTrim msg,
          timestamp := nowIso }⟩] := by
  unfold handleChatMessage
  rw [if_neg (by simp [falsy, hmid, huid, hmsg])]
  dsimp only
  simp only [Option.getD_some]
  rw [if_neg htrim]

/-- C9 (witness): the amended theorem on a concrete padded message in
`stOne`. -/
theorem claim9_amended_witness :
    handleChatMessage "s1"
      { meetingId := some "M", userId := some "u1", username := none,
        message := some "  hello  " }
      7 "t7" stOne =
      [⟨Target.room "M", SEvent.chatMsg
        { messageId := toString 7 ++ "_" ++ "s1", meetingId := "M", userId := "u1",
          username := jsOr ((((mapGet "M" stOne.meetingRooms).getD []).find?
            (fun q => q.socketId = "s1" ∨ q.userId = "u1")).bind (fun u => u.username)) none,
          message := jsTrim "  hello  ",
          timestamp := "t7" }⟩] :=
  claim9_amended_broadcast "s1" "M" "u1" "  hello  " none 7 "t7" stOne
    (by decide) (by decide) (by decide) (by decide)

/-- C10: a chat-message whose `message` field is present (truthy) but
trims to the empty string is silently dropped: the handler emits
nothing -- no broadcast to anyone and no error to the originator. -/
theorem claim10_whitespace_dropped (sid mid uid msg : String) (puname : Option String)
    (nowMs : Nat) (nowIso : String) (st : ServerState)
    (hmid : mid ≠ "") (huid : uid ≠ "") (hmsg : msg ≠ "") (htrim : jsTrim msg = "") :
    handleChatMessage sid
      { meetingId := some mid, userId := some uid, username := puname, message := some msg }
      nowMs nowIso st = [] := by
  unfold handleChatMessage
  rw [if_neg (by simp [falsy, hmid, huid, hmsg])]
  dsimp only
  simp only [Option.getD_some]
  rw [if_pos htrim]

/-- C10 (witness): the whitespace-only message "   " is dropped. -/
theorem claim10_witness :
    handleChatMessage "s1"
      { meetingId := some "M", userId := some "u1", username := none, message := some "   " }
      123 "t3" stOne = [] :=
  claim10_whitespace_dropped "s1" "M" "u1" "   " none 123 "t3" stOne
    (by decide) (by decide) (by decide) (by decide)

end ChatServer
